import Mathlib

/-!
Verification of the real-time translation backend (two-party multilingual
meeting). Shallow embedding of:

* `backend/src/ws/connectionManager.ts` — the connection registry
  (`ConnectionManager.add / remove / get / getPartner`);
* `backend/src/services/translate.ts` — `pivotTranslate` / `translateDirect`;
* `backend/src/utils/languages.ts` — the language table and lookup helpers;
* the WebSocket handler (`wsHandler.ts`): `handleAudioFrame`,
  `onTranscriptResult`, the stale-partial timer callback, `sendError`, the
  `join` control path.

JS `Map`s are modelled as association lists with `Map.set` update-or-append
semantics (insertion order preserved, as in JS); JS `Set`s as duplicate-free
lists in insertion order.  Times are `Nat` milliseconds; the external
translator and TTS services are oracle parameters of the model.
-/

namespace InfiniZe

/-- JS `Map.get`: first binding of the key, if any. -/
def mapGet {α : Type} (k : String) : List (String × α) → Option α
  | [] => none
  | (k₂, v) :: rest => if k₂ = k then some v else mapGet k rest

/-- JS `Map.set`: replace the binding in place if the key exists, else append. -/
def mapSet {α : Type} (k : String) (v : α) : List (String × α) → List (String × α)
  | [] => [(k, v)]
  | (k₂, v₂) :: rest => if k₂ = k then (k, v) :: rest else (k₂, v₂) :: mapSet k v rest

/-- JS `Map.delete`: remove the binding of the key. -/
def mapDelete {α : Type} (k : String) : List (String × α) → List (String × α)
  | [] => []
  | (k₂, v) :: rest => if k₂ = k then mapDelete k rest else (k₂, v) :: mapDelete k rest

/-- JS `Set.add`: append the element unless already present. -/
def setAdd (x : String) (s : List String) : List String :=
  if x ∈ s then s else s ++ [x]

/-- JS `Set.delete` on a duplicate-free list. -/
def setDelete (x : String) : List String → List String
  | [] => []
  | y :: rest => if y = x then setDelete x rest else y :: setDelete x rest

@[simp] theorem mapGet_mapSet_self {α : Type} (k : String) (v : α) (m : List (String × α)) :
    mapGet k (mapSet k v m) = some v := by
  induction m with
  | nil => simp [mapGet, mapSet]
  | cons kv rest ih =>
    obtain ⟨k₂, v₂⟩ := kv
    by_cases h : k₂ = k
    · simp [mapGet, mapSet, h]
    · simp [mapGet, mapSet, h, ih]

theorem mapGet_mapSet_ne {α : Type} {k k₂ : String} (hne : k₂ ≠ k) (v : α)
    (m : List (String × α)) : mapGet k₂ (mapSet k v m) = mapGet k₂ m := by
  have hne₂ : ¬ k = k₂ := fun h => hne h.symm
  induction m with
  | nil => simp [mapGet, mapSet, hne₂]
  | cons kv rest ih =>
    obtain ⟨k₃, v₃⟩ := kv
    by_cases h : k₃ = k
    · subst h
      simp [mapGet, mapSet, hne₂]
    · by_cases h₂ : k₃ = k₂
      · simp [mapGet, mapSet, h, h₂, hne]
      · simp [mapGet, mapSet, h, h₂, ih]

theorem mapGet_mapDelete {α : Type} (k k₂ : String) (m : List (String × α)) :
    mapGet k₂ (mapDelete k m) = if k₂ = k then none else mapGet k₂ m := by
  induction m with
  | nil => simp [mapGet, mapDelete]
  | cons kv rest ih =>
    obtain ⟨k₃, v₃⟩ := kv
    by_cases h : k₃ = k
    · subst h
      by_cases h₂ : k₂ = k₃
      · subst h₂
        simp [mapDelete, mapGet, ih]
      · have h₃ : ¬ k₃ = k₂ := fun hh => h₂ hh.symm
        simp [mapDelete, mapGet, ih, h₂, h₃]
    · by_cases h₂ : k₃ = k₂
      · subst h₂
        simp [mapDelete, mapGet, h]
      · simp [mapDelete, mapGet, h, h₂, ih]

theorem setAdd_length_le (x : String) (s : List String) :
    (setAdd x s).length ≤ s.length + 1 := by
  unfold setAdd
  split
  · omega
  · simp

theorem setDelete_length_le (x : String) (s : List String) :
    (setDelete x s).length ≤ s.length := by
  induction s with
  | nil => simp [setDelete]
  | cons y rest ih =>
    by_cases h : y = x
    · simp only [setDelete, if_pos h]
      simp only [List.length_cons]
      omega
    · simp only [setDelete, if_neg h, List.length_cons]
      omega

/-! ### Data model: participants and sockets -/

/-- `ws.readyState` of a WebSocket handle. -/
inductive ReadyState
  | connecting
  | opened
  | closing
  | closed
  deriving DecidableEq, Repr

/-- `ParticipantInfo` from `types.ts` (the fields carried by a `join`). -/
structure ParticipantInfo where
  meetingId : String
  attendeeId : String
  attendeeName : String
  spokenLanguage : String
  targetLanguage : String
  deriving DecidableEq, Repr

/-- `ManagedConnection` from `connectionManager.ts`; the WebSocket handle is
modelled by its `readyState`. -/
structure ManagedConnection where
  ws : ReadyState
  info : ParticipantInfo
  deriving DecidableEq, Repr

/-! ### ConnectionManager (`backend/src/ws/connectionManager.ts`) -/

/-- The two private maps of `class ConnectionManager`. -/
structure ConnState where
  connections : List (String × ManagedConnection)
  meetingMembers : List (String × List String)
  deriving DecidableEq, Repr

def ConnState.empty : ConnState := ⟨[], []⟩

/-- `ConnectionManager.add`: throws "Meeting is full" when the meeting already
has two members (before mutating anything); otherwise registers the connection
and adds it to the meeting's member set. -/
def ConnState.add (st : ConnState) (connectionId : String) (ws : ReadyState)
    (info : ParticipantInfo) : Except String ConnState :=
  match mapGet info.meetingId st.meetingMembers with
  | some existing =>
    if 2 ≤ existing.length then
      Except.error "Meeting is full (2 participants maximum)"
    else
      Except.ok
        { connections := mapSet connectionId ⟨ws, info⟩ st.connections
          meetingMembers :=
            mapSet info.meetingId (setAdd connectionId existing) st.meetingMembers }
  | none =>
    Except.ok
      { connections := mapSet connectionId ⟨ws, info⟩ st.connections
        meetingMembers :=
          mapSet info.meetingId (setAdd connectionId []) st.meetingMembers }

/-- `ConnectionManager.remove`: drop the connection, remove it from its
meeting's member set, and drop the meeting entry when it becomes empty. -/
def ConnState.remove (st : ConnState) (connectionId : String) :
    ConnState × Option ParticipantInfo :=
  match mapGet connectionId st.connections with
  | none => (st, none)
  | some conn =>
    let connections := mapDelete connectionId st.connections
    let meetingMembers :=
      match mapGet conn.info.meetingId st.meetingMembers with
      | none => st.meetingMembers
      | some members =>
        let members := setDelete connectionId members
        if members.length = 0 then mapDelete conn.info.meetingId st.meetingMembers
        else mapSet conn.info.meetingId members st.meetingMembers
    (⟨connections, meetingMembers⟩, some conn.info)

/-- Loop body of `ConnectionManager.getPartner`: scan the meeting's member ids
in insertion order, skipping the caller, returning the first other connection
whose socket is OPEN. -/
def findOpenPartner (st : ConnState) (myConnectionId : String) :
    List String → Option ManagedConnection
  | [] => none
  | id :: rest =>
    if id = myConnectionId then findOpenPartner st myConnectionId rest
    else
      match mapGet id st.connections with
      | some conn =>
        if conn.ws = ReadyState.opened then some conn
        else findOpenPartner st myConnectionId rest
      | none => findOpenPartner st myConnectionId rest

/-- `ConnectionManager.getPartner`. -/
def ConnState.getPartner (st : ConnState) (meetingId myConnectionId : String) :
    Option ManagedConnection :=
  match mapGet meetingId st.meetingMembers with
  | none => none
  | some members => findOpenPartner st myConnectionId members

/-- Registry operations reachable from the WebSocket handler: `add` on `join`
(a thrown meeting-full error leaves the state unchanged) and `remove` on
disconnect. -/
inductive RegOp
  | add (connectionId : String) (ws : ReadyState) (info : ParticipantInfo)
  | remove (connectionId : String)

def applyRegOp (st : ConnState) : RegOp → ConnState
  | RegOp.add cid ws info =>
    match st.add cid ws info with
    | Except.ok st₂ => st₂
    | Except.error _ => st
  | RegOp.remove cid => (st.remove cid).1

def applyRegOps (st : ConnState) (ops : List RegOp) : ConnState :=
  ops.foldl applyRegOp st

/-- The two-party cap: every meeting's member set has at most two ids. -/
def meetingCap (st : ConnState) : Prop :=
  ∀ m ms, mapGet m st.meetingMembers = some ms → ms.length ≤ 2

theorem ConnState.add_full {st : ConnState} {cid : String} {ws : ReadyState}
    {info : ParticipantInfo} {existing : List String}
    (hg : mapGet info.meetingId st.meetingMembers = some existing)
    (hfull : 2 ≤ existing.length) :
    st.add cid ws info = Except.error "Meeting is full (2 participants maximum)" := by
  simp [ConnState.add, hg, hfull]

theorem ConnState.add_ok_of_some {st : ConnState} {cid : String} {ws : ReadyState}
    {info : ParticipantInfo} {existing : List String}
    (hg : mapGet info.meetingId st.meetingMembers = some existing)
    (hfull : ¬ 2 ≤ existing.length) :
    st.add cid ws info =
      Except.ok
        ⟨mapSet cid ⟨ws, info⟩ st.connections,
         mapSet info.meetingId (setAdd cid existing) st.meetingMembers⟩ := by
  simp [ConnState.add, hg, hfull]

theorem ConnState.add_ok_of_none {st : ConnState} {cid : String} {ws : ReadyState}
    {info : ParticipantInfo}
    (hg : mapGet info.meetingId st.meetingMembers = none) :
    st.add cid ws info =
      Except.ok
        ⟨mapSet cid ⟨ws, info⟩ st.connections,
         mapSet info.meetingId (setAdd cid []) st.meetingMembers⟩ := by
  simp [ConnState.add, hg]

theorem meetingCap_mapSet_members {st : ConnState}
    (h : meetingCap st) (mid : String) (ms : List String) (hms : ms.length ≤ 2)
    (conns : List (String × ManagedConnection)) :
    meetingCap ⟨conns, mapSet mid ms st.meetingMembers⟩ := by
  intro m ms₂ hm
  by_cases hmeq : m = mid
  · subst hmeq
    simp only [mapGet_mapSet_self] at hm
    cases hm
    exact hms
  · rw [mapGet_mapSet_ne hmeq] at hm
    exact h m ms₂ hm

theorem meetingCap_applyRegOp {st : ConnState} (h : meetingCap st) (op : RegOp) :
    meetingCap (applyRegOp st op) := by
  cases op with
  | add cid ws info =>
    show meetingCap (match st.add cid ws info with
      | Except.ok st₂ => st₂
      | Except.error _ => st)
    cases hg : mapGet info.meetingId st.meetingMembers with
    | some existing =>
      by_cases hfull : 2 ≤ existing.length
      · rw [ConnState.add_full hg hfull]
        exact h
      · rw [ConnState.add_ok_of_some hg hfull]
        refine meetingCap_mapSet_members h _ _ ?_ _
        have := setAdd_length_le cid existing
        omega
    | none =>
      rw [ConnState.add_ok_of_none hg]
      refine meetingCap_mapSet_members h _ _ ?_ _
      simp [setAdd]
  | remove cid =>
    show meetingCap (st.remove cid).1
    rw [ConnState.remove]
    cases hc : mapGet cid st.connections with
    | none => exact h
    | some conn =>
      simp only
      cases hg : mapGet conn.info.meetingId st.meetingMembers with
      | none => exact fun m ms hm => h m ms hm
      | some members =>
        by_cases hz : (setDelete cid members).length = 0
        · simp only [hz, if_true]
          intro m ms hm
          rw [mapGet_mapDelete] at hm
          split at hm
          · exact absurd hm (by simp)
          · exact h m ms hm
        · simp only [hz, if_false]
          refine meetingCap_mapSet_members h _ _ ?_ _
          have h₁ := setDelete_length_le cid members
          have h₂ := h _ _ hg
          omega

theorem meetingCap_foldl (ops : List RegOp) :
    ∀ st, meetingCap st → meetingCap (applyRegOps st ops) := by
  induction ops with
  | nil => intro st h; exact h
  | cons op rest ih =>
    intro st h
    exact ih (applyRegOp st op) (meetingCap_applyRegOp h op)

theorem meetingCap_applyRegOps (ops : List RegOp) :
    meetingCap (applyRegOps ConnState.empty ops) := by
  refine meetingCap_foldl ops ConnState.empty ?_
  intro m ms hm
  simp [ConnState.empty, mapGet] at hm

theorem findOpenPartner_sound {st : ConnState} {myId : String}
    {conn : ManagedConnection} :
    ∀ {members : List String}, findOpenPartner st myId members = some conn →
      ∃ id, id ∈ members ∧ id ≠ myId ∧ mapGet id st.connections = some conn ∧
        conn.ws = ReadyState.opened := by
  intro members
  induction members with
  | nil => intro h; simp [findOpenPartner] at h
  | cons id rest ih =>
    intro h
    by_cases hid : id = myId
    · rw [findOpenPartner, if_pos hid] at h
      obtain ⟨id₂, hmem, hne, hget, hws⟩ := ih h
      exact ⟨id₂, List.mem_cons_of_mem _ hmem, hne, hget, hws⟩
    · rw [findOpenPartner, if_neg hid] at h
      cases hc : mapGet id st.connections with
      | none =>
        simp only [hc] at h
        obtain ⟨id₂, hmem, hne, hget, hws⟩ := ih h
        exact ⟨id₂, List.mem_cons_of_mem _ hmem, hne, hget, hws⟩
      | some c =>
        simp only [hc] at h
        by_cases hws : c.ws = ReadyState.opened
        · rw [if_pos hws] at h
          cases h
          exact ⟨id, List.mem_cons_self _ _, hid, hc, hws⟩
        · rw [if_neg hws] at h
          obtain ⟨id₂, hmem, hne, hget, hws₂⟩ := ih h
          exact ⟨id₂, List.mem_cons_of_mem _ hmem, hne, hget, hws₂⟩

/-! ### Language registry (`backend/src/utils/languages.ts`) -/

/-- English is the pivot language (`PIVOT_LANGUAGE`). -/
def PIVOT_LANGUAGE : String := "en"

/-- One row of `SUPPORTED_LANGUAGES`. -/
structure LanguageConfig where
  code : String
  transcribeCode : String
  translateCode : String
  pollyVoiceId : String
  pollyEngine : String
  label : String
  deriving DecidableEq, Repr

/-- The `SUPPORTED_LANGUAGES` table (six speech-supported languages). -/
def SUPPORTED_LANGUAGES : List LanguageConfig :=
  [⟨"en-US", "en-US", "en", "Matthew", "neural", "English"⟩,
   ⟨"zh-TW", "zh-CN", "zh-TW", "Zhiyu", "neural", "Chinese (Traditional)"⟩,
   ⟨"fr-FR", "fr-FR", "fr", "Lea", "neural", "French"⟩,
   ⟨"ko-KR", "ko-KR", "ko", "Seoyeon", "neural", "Korean"⟩,
   ⟨"es-US", "es-US", "es", "Lupe", "neural", "Spanish"⟩,
   ⟨"hi-IN", "hi-IN", "hi", "Kajal", "neural", "Hindi"⟩]

/-- `getLanguageConfig`: first row whose `code`, `transcribeCode` or
`translateCode` matches. -/
def getLanguageConfig (code : String) : Option LanguageConfig :=
  SUPPORTED_LANGUAGES.find? fun l =>
    l.code == code || l.transcribeCode == code || l.translateCode == code

/-- `getTranscribeCode` (`cfg?.transcribeCode || null`, JS falsiness of ""). -/
def getTranscribeCode (languageCode : String) : Option String :=
  match getLanguageConfig languageCode with
  | some cfg => if cfg.transcribeCode = "" then none else some cfg.transcribeCode
  | none => none

/-- `transcribeToTranslateCode` (`cfg?.translateCode || 'en'`). -/
def transcribeToTranslateCode (transcribeCode : String) : String :=
  match SUPPORTED_LANGUAGES.find? fun l => l.transcribeCode == transcribeCode with
  | some cfg => if cfg.translateCode = "" then "en" else cfg.translateCode
  | none => "en"

/-- `getTranslateCode` (`getLanguageConfig(code)?.translateCode || 'en'`). -/
def getTranslateCode (languageCode : String) : String :=
  match getLanguageConfig languageCode with
  | some cfg => if cfg.translateCode = "" then "en" else cfg.translateCode
  | none => "en"

/-! ### Translator (`backend/src/services/translate.ts`)

The AWS Translate RPC is an oracle `api text source target`; each invocation
of `TranslateTextCommand` is recorded as a `Hop` so call counts are
observable. -/

/-- One `TranslateTextCommand` issued by `translateDirect`. -/
structure Hop where
  text : String
  source : String
  target : String
  deriving DecidableEq, Repr

/-- `translateDirect`: same-language is a no-op, otherwise one RPC. -/
def translateDirect (api : String → String → String → String)
    (text source target : String) : String × List Hop :=
  if source = target then (text, [])
  else (api text source target, [⟨text, source, target⟩])

/-- Result record of `pivotTranslate`. -/
structure PivotResult where
  pivotText : String
  translatedText : String
  deriving DecidableEq, Repr

/-- `pivotTranslate`: no-op when source = target; direct hop when one end is
the pivot; otherwise source → English → target. -/
def pivotTranslate (api : String → String → String → String)
    (text sourceLanguageCode targetLanguageCode : String) :
    PivotResult × List Hop :=
  if sourceLanguageCode = targetLanguageCode then
    (⟨text, text⟩, [])
  else if sourceLanguageCode = PIVOT_LANGUAGE then
    let (translated, hops) := translateDirect api text PIVOT_LANGUAGE targetLanguageCode
    (⟨text, translated⟩, hops)
  else if targetLanguageCode = PIVOT_LANGUAGE then
    let (translated, hops) := translateDirect api text sourceLanguageCode PIVOT_LANGUAGE
    (⟨translated, translated⟩, hops)
  else
    let (pivotText, hops₁) := translateDirect api text sourceLanguageCode PIVOT_LANGUAGE
    let (translatedText, hops₂) := translateDirect api pivotText PIVOT_LANGUAGE targetLanguageCode
    (⟨pivotText, translatedText⟩, hops₁ ++ hops₂)

/-! ### `normalizeForComparison` (wsHandler.ts)

`text.toLowerCase().replace(/[.,!?;:'"()\-]/g, '').replace(/\s+/g, ' ').trim()`
modelled on the character list of the string. -/

/-- The characters removed by the punctuation-stripping regex. -/
def strippedPunct : List Char :=
  [Char.ofNat 46, Char.ofNat 44, Char.ofNat 33, Char.ofNat 63, Char.ofNat 59,
   Char.ofNat 58, Char.ofNat 39, Char.ofNat 34, Char.ofNat 40, Char.ofNat 41,
   Char.ofNat 45]

/-- `replace(/\s+/g, ' ')`: collapse each maximal whitespace run to one space. -/
def collapseWs : List Char → List Char
  | [] => []
  | [c] => if c.isWhitespace then [Char.ofNat 32] else [c]
  | c :: d :: rest =>
    if c.isWhitespace then
      if d.isWhitespace then collapseWs (d :: rest)
      else Char.ofNat 32 :: collapseWs (d :: rest)
    else c :: collapseWs (d :: rest)

/-- `trim()`: drop leading and trailing whitespace. -/
def trimWs (l : List Char) : List Char :=
  ((l.dropWhile Char.isWhitespace).reverse.dropWhile Char.isWhitespace).reverse

def normalizeForComparison (text : String) : String :=
  String.mk
    (trimWs (collapseWs ((text.data.map Char.toLower).filter
      fun c => c ∉ strippedPunct)))

/-- JS `String.prototype.startsWith` on the underlying character lists. -/
def charsBeginWith : List Char → List Char → Bool
  | _, [] => true
  | [], _ :: _ => false
  | a :: as, b :: bs => a = b && charsBeginWith as bs

/-- `s.startsWith(p)`. -/
def strBeginsWith (s p : String) : Bool :=
  charsBeginWith s.data p.data

/-! ### Translation pipeline state (wsHandler.ts)

The handler keeps per-connection entries in seven module-level maps, all keyed
by `connectionId`; `PipelineState` is the slice of those maps for one
connection (`none` = key absent).  The partner lookup
(`connectionManager.getPartner`) and the translator / Polly RPCs are supplied
by a `PipelineEnv`: `translate text src dst` is the awaited `pivotTranslate`
result (`none` = the call threw), `synthesize text lang` the awaited
`synthesizeSpeech` result (`none` = it returned `null` or threw). -/

/-- `TranscriptResult` from `transcribe.ts`. -/
structure TranscriptResult where
  text : String
  isFinal : Bool
  detectedLanguage : String
  startTimeMs : Option Nat
  endTimeMs : Option Nat
  deriving DecidableEq, Repr

/-- `CaptionEvent` from `types.ts`. -/
structure CaptionEvent where
  speakerAttendeeId : String
  speakerName : String
  originalText : String
  translatedText : String
  isFinal : Bool
  detectedLanguage : String
  targetLanguage : String
  startTimeMs : Option Nat
  endTimeMs : Option Nat
  deriving DecidableEq, Repr

/-- `TranslatedAudioEvent` from `types.ts`; `audioData` holds the (opaque)
synthesized audio. -/
structure TranslatedAudioEvent where
  speakerAttendeeId : String
  audioData : String
  targetLanguage : String
  deriving DecidableEq, Repr

/-- An entry of `partialTranslationCache`. -/
structure TxCacheEntry where
  originalText : String
  translatedText : String
  deriving DecidableEq, Repr

/-- An entry of `preSynthCache`; `audioResult` is the settled `audioPromise`
(`.catch(() => null)` makes failures `none`). -/
structure PreSynthEntry where
  translatedText : String
  audioResult : Option String
  deriving DecidableEq, Repr

/-- An entry of `latestPartialState`. -/
structure LatestPartial where
  translatedText : String
  speaker : ParticipantInfo
  deriving DecidableEq, Repr

/-- A pending `stalePartialTimers` entry: when it is due and the `targetCode`
captured by the `setTimeout` closure. -/
structure StaleTimer where
  due : Nat
  targetCode : String
  deriving DecidableEq, Repr

/-- Per-connection slice of the handler's module-level maps. -/
structure PipelineState where
  lastPartialTime : Option Nat
  partialTranslationCache : Option TxCacheEntry
  preSynthCache : Option PreSynthEntry
  lastPreSynthTime : Option Nat
  stalePartialTimer : Option StaleTimer
  interimPollyText : Option String
  latestPartialState : Option LatestPartial
  deriving DecidableEq, Repr

/-- Fresh connection: no map has an entry. -/
def PipelineState.init : PipelineState :=
  ⟨none, none, none, none, none, none, none⟩

/-- External collaborators of `onTranscriptResult` for one connection. -/
structure PipelineEnv where
  speaker : ParticipantInfo
  partner : Option ManagedConnection
  translate : String → String → String → Option String
  synthesize : String → String → Option String

/-- Observable effects of the handler, in emission order. -/
inductive PipelineEmit
  | caption (e : CaptionEvent)
  | interimAudio (e : TranslatedAudioEvent)
  | finalAudio (e : TranslatedAudioEvent)
  | translateCall (text source target : String)
  deriving DecidableEq, Repr

def isTranslateCall : PipelineEmit → Bool
  | PipelineEmit.translateCall _ _ _ => true
  | _ => false

def isInterimAudio : PipelineEmit → Bool
  | PipelineEmit.interimAudio _ => true
  | _ => false

def isFinalAudio : PipelineEmit → Bool
  | PipelineEmit.finalAudio _ => true
  | _ => false

def isAudioEvent : PipelineEmit → Bool
  | PipelineEmit.interimAudio _ => true
  | PipelineEmit.finalAudio _ => true
  | _ => false

def translateCallCount (l : List PipelineEmit) : Nat :=
  (l.filter isTranslateCall).length

def interimAudioCount (l : List PipelineEmit) : Nat :=
  (l.filter isInterimAudio).length

def finalAudioCount (l : List PipelineEmit) : Nat :=
  (l.filter isFinalAudio).length

def audioEventCount (l : List PipelineEmit) : Nat :=
  (l.filter isAudioEvent).length

/-- Target language selection: the partner's spoken language when a partner is
present, else the speaker's declared target. -/
def targetCodeFor (env : PipelineEnv) : String :=
  match env.partner with
  | some p => getTranslateCode p.info.spokenLanguage
  | none => getTranslateCode env.speaker.targetLanguage

/-- `partner && partner.ws.readyState === WebSocket.OPEN`. -/
def partnerIsOpen (env : PipelineEnv) : Bool :=
  match env.partner with
  | some p => p.ws = ReadyState.opened
  | none => false

/-- Result of the translation block of `onTranscriptResult`. -/
structure TranslateOutcome where
  translatedText : String
  usedCache : Bool
  emits : List PipelineEmit
  cache : Option TxCacheEntry
  deriving DecidableEq, Repr

/-- Translation block: skip when the languages agree; on a final whose text
matches the cached partial, reuse the cached translation (no RPC); otherwise
call the translator, falling back to the original text on error.  Partials
store their translation in the cache, finals clear it. -/
def translateStage (env : PipelineEnv) (st : PipelineState) (r : TranscriptResult)
    (srcLang targetCode : String) : TranslateOutcome :=
  if srcLang = targetCode then
    ⟨r.text, false, [], st.partialTranslationCache⟩
  else
    let hit : Option String :=
      match st.partialTranslationCache with
      | some cached =>
        if r.isFinal = true ∧ cached.originalText = r.text then
          some cached.translatedText
        else none
      | none => none
    match hit with
    | some cachedText =>
      ⟨cachedText, true, [],
       if r.isFinal = false then some ⟨r.text, cachedText⟩ else none⟩
    | none =>
      match env.translate r.text srcLang targetCode with
      | some tr =>
        ⟨tr, false, [PipelineEmit.translateCall r.text srcLang targetCode],
         if r.isFinal = false then some ⟨r.text, tr⟩ else none⟩
      | none =>
        ⟨r.text, false, [PipelineEmit.translateCall r.text srcLang targetCode],
         if r.isFinal = false then some ⟨r.text, r.text⟩ else none⟩

/-- Background Polly pre-synthesis: only for partials with a partner and more
than 10 translated characters, throttled to one start per 1000 ms. -/
def preSynthStep (env : PipelineEnv) (st : PipelineState) (now : Nat)
    (isFinal : Bool) (translatedText : String) : PipelineState :=
  match env.partner with
  | some p =>
    if isFinal = false ∧ 10 < translatedText.length then
      if 1000 ≤ now - st.lastPreSynthTime.getD 0 then
        { st with
            lastPreSynthTime := some now
            preSynthCache :=
              some ⟨translatedText, env.synthesize translatedText p.info.spokenLanguage⟩ }
      else st
    else st
  | none => st

/-- Stale-partial scheduling: for partials with a partner and more than 10
translated characters, store the latest partial and (re)arm the single 5000 ms
timer, clearing any previous one. -/
def staleStep (env : PipelineEnv) (st : PipelineState) (now : Nat)
    (isFinal : Bool) (translatedText targetCode : String) : PipelineState :=
  match env.partner with
  | some _ =>
    if isFinal = false ∧ 10 < translatedText.length then
      { st with
          latestPartialState := some ⟨translatedText, env.speaker⟩
          stalePartialTimer := some ⟨now + 5000, targetCode⟩ }
    else st
  | none => st

/-- Final branch of `onTranscriptResult` (reached when `isFinal` and the
partner socket is OPEN): cancel the stale timer, and unless the normalized
final translation starts with the non-empty interim text already played, fetch
audio (pre-synth slot on a text match, else a fresh Polly call) and emit the
final `TranslatedAudioEvent`. -/
def finalPath (env : PipelineEnv) (st : PipelineState) (p : ManagedConnection)
    (translatedText targetCode : String) : PipelineState × List PipelineEmit :=
  let st := { st with stalePartialTimer := none, latestPartialState := none }
  let interimPlayed := st.interimPollyText
  let st := { st with interimPollyText := none }
  let normalizedFinal := normalizeForComparison translatedText
  let skip : Bool :=
    match interimPlayed with
    | some ip => ip ≠ "" && strBeginsWith normalizedFinal ip
    | none => false
  if skip then
    ({ st with preSynthCache := none, lastPreSynthTime := none }, [])
  else
    let cached := st.preSynthCache
    let st := { st with preSynthCache := none, lastPreSynthTime := none }
    let fromCache : Option String :=
      match cached with
      | some c => if c.translatedText = translatedText then c.audioResult else none
      | none => none
    let audioBuffer : Option String :=
      match fromCache with
      | some b => some b
      | none => env.synthesize translatedText p.info.spokenLanguage
    match audioBuffer with
    | some buf =>
      if p.ws = ReadyState.opened then
        (st, [PipelineEmit.finalAudio ⟨env.speaker.attendeeId, buf, targetCode⟩])
      else (st, [])
    | none => (st, [])

/-- The caption event built for a segment. -/
def mkCaption (env : PipelineEnv) (r : TranscriptResult)
    (srcLang targetCode translatedText : String) : CaptionEvent :=
  ⟨env.speaker.attendeeId, env.speaker.attendeeName, r.text, translatedText,
   r.isFinal, srcLang, targetCode, r.startTimeMs, r.endTimeMs⟩

/-- `onTranscriptResult`: throttle partials, translate (with partial-cache
reuse), emit the caption to an open partner, run pre-synthesis and
stale-partial scheduling for qualifying partials, and take the final path when
a final arrives with an open partner. -/
def onTranscriptResult (env : PipelineEnv) (st : PipelineState) (now : Nat)
    (r : TranscriptResult) : PipelineState × List PipelineEmit :=
  if r.isFinal = false ∧ now - st.lastPartialTime.getD 0 < 100 then (st, [])
  else
    let st₁ := if r.isFinal = false then { st with lastPartialTime := some now } else st
    let srcLang := transcribeToTranslateCode r.detectedLanguage
    let targetCode := targetCodeFor env
    let tx := translateStage env st₁ r srcLang targetCode
    let st₂ := { st₁ with partialTranslationCache := tx.cache }
    let captionEmits :=
      if partnerIsOpen env then
        [PipelineEmit.caption (mkCaption env r srcLang targetCode tx.translatedText)]
      else []
    let st₃ := preSynthStep env st₂ now r.isFinal tx.translatedText
    let st₄ := staleStep env st₃ now r.isFinal tx.translatedText targetCode
    match env.partner with
    | some p =>
      if r.isFinal = true ∧ p.ws = ReadyState.opened then
        let fin := finalPath env st₄ p tx.translatedText targetCode
        (fin.1, tx.emits ++ captionEmits ++ fin.2)
      else (st₄, tx.emits ++ captionEmits)
    | none => (st₄, tx.emits ++ captionEmits)

/-- The `setTimeout` callback of the stale-partial timer: re-read the latest
partial and the partner; if both exist and the partner socket is OPEN,
synthesize the partial and, on success, record the normalized text in
`interimPollyText` and send one interim `TranslatedAudioEvent`. -/
def fireStaleTimer (env : PipelineEnv) (st : PipelineState) :
    PipelineState × List PipelineEmit :=
  match st.stalePartialTimer with
  | none => (st, [])
  | some timer =>
    let st := { st with stalePartialTimer := none }
    match st.latestPartialState, env.partner with
    | some state, some p =>
      if p.ws = ReadyState.opened then
        match env.synthesize state.translatedText p.info.spokenLanguage with
        | some buf =>
          ({ st with
               interimPollyText := some (normalizeForComparison state.translatedText) },
           [PipelineEmit.interimAudio ⟨state.speaker.attendeeId, buf, timer.targetCode⟩])
        | none => (st, [])
      else (st, [])
    | some _, none => (st, [])
    | none, _ => (st, [])

/-- The translated text a segment ends up with (the value of `translatedText`
after the translation block); for finals the state passed to the block is the
incoming state, since the throttle step only touches `lastPartialTime` on
partials and the block only reads `partialTranslationCache`. -/
def translatedTextOf (env : PipelineEnv) (st : PipelineState)
    (r : TranscriptResult) : String :=
  (translateStage env st r (transcribeToTranslateCode r.detectedLanguage)
    (targetCodeFor env)).translatedText

/-! ### Audio frames (`handleAudioFrame`, wsHandler.ts) and ASR sessions

An ASR session is a `TranscriptionSession` (AWS) or a
`DeepgramTranscriptionSession`; the model keeps the fields the audio path
reads (`active`, `connectionState`, whether `this.connection` is set) plus the
list of frames pushed to the provider.  A frame is modelled by its byte
length, which is all `handleAudioFrame` inspects before forwarding. -/

inductive AsrProvider
  | deepgram
  | aws
  deriving DecidableEq, Repr

/-- `connectionState` of a `DeepgramTranscriptionSession`. -/
inductive DgConnState
  | idle
  | connecting
  | opened
  | closed
  deriving DecidableEq, Repr

structure AsrSession where
  provider : AsrProvider
  active : Bool
  connectionState : DgConnState
  hasConnection : Bool
  languageCode : String
  pushed : List Nat
  deriving DecidableEq, Repr

/-- `DeepgramTranscriptionSession.isAlive`:
`active && (connectionState === 'connecting' || connectionState === 'open')`. -/
def AsrSession.isAlive (s : AsrSession) : Bool :=
  s.active && (s.connectionState = DgConnState.connecting
    || s.connectionState = DgConnState.opened)

/-- `pushAudio`: Deepgram drops the chunk when inactive or the connection is
unset; the AWS session drops it when inactive. -/
def AsrSession.pushAudio (s : AsrSession) (data : Nat) : AsrSession :=
  match s.provider with
  | AsrProvider.deepgram =>
    if s.active && s.hasConnection then { s with pushed := s.pushed ++ [data] } else s
  | AsrProvider.aws =>
    if s.active then { s with pushed := s.pushed ++ [data] } else s

/-- The session `startTranscription` installs: the Deepgram constructor plus
the synchronous head of `start()` leaves `active = true`,
`connectionState = 'connecting'` and `this.connection` set before any frame is
pushed; the AWS session starts `active = true`. -/
def freshSession (useDeepgram : Bool) (code : String) : AsrSession :=
  if useDeepgram then ⟨AsrProvider.deepgram, true, DgConnState.connecting, true, code, []⟩
  else ⟨AsrProvider.aws, true, DgConnState.idle, true, code, []⟩

/-- `config.deepgram.provider === 'deepgram' && config.deepgram.apiKey`. -/
structure AudioEnv where
  useDeepgram : Bool

/-- Slice of `transcriptionSessions` and `connectionManager` for one
connection id. -/
structure AudioState where
  session : Option AsrSession
  conn : Option ParticipantInfo
  deriving DecidableEq, Repr

/-- Session-map effect of `startTranscription`: the old session is stopped and
removed; when the spoken language has no transcribe code the function logs and
returns with no session installed, otherwise a fresh provider session is
created and stored. -/
def startTranscriptionSession (env : AudioEnv) (info : ParticipantInfo) :
    Option AsrSession :=
  match getTranscribeCode info.spokenLanguage with
  | none => none
  | some code => some (freshSession env.useDeepgram code)

/-- Events the audio path could send to the client (it sends none). -/
inductive AudioEmit
  | errorEvent (message : String)
  deriving DecidableEq, Repr

/-- Does the audio path take the auto-restart branch?  `!session ||
(session instanceof DeepgramTranscriptionSession && !session.isAlive())`. -/
def needsRestart (session : Option AsrSession) : Bool :=
  match session with
  | none => true
  | some s => s.provider = AsrProvider.deepgram && !s.isAlive

/-- `handleAudioFrame`: drop frames above 65 536 bytes; otherwise forward to
the session, auto-restarting it first when missing or (Deepgram) dead — the
restarted session receives the same frame.  If the connection is unknown or
the language unsupported, the frame is dropped. -/
def handleAudioFrame (env : AudioEnv) (st : AudioState) (data : Nat) :
    AudioState × List AudioEmit :=
  if 65536 < data then (st, [])
  else if needsRestart st.session then
    match st.conn with
    | some info =>
      match startTranscriptionSession env info with
      | some fresh => ({ st with session := some (fresh.pushAudio data) }, [])
      | none => ({ st with session := none }, [])
    | none => (st, [])
  else
    match st.session with
    | some s => ({ st with session := some (s.pushAudio data) }, [])
    | none => (st, [])

/-! ### `join` control path (wsHandler.ts)

`handleControlMessage` case `'join'` runs inside the `ws.on('message')`
`try`/`catch`: `connectionManager.add` may throw meeting-full, in which case
the catch calls `sendError` (which sends an `error` event only when the socket
is OPEN).  Nothing in the handler calls `ws.close()` or `ws.terminate()`, so
`closedConnection` records that the server never closes the joiner's
transport. -/

/-- Frames the server sends back to the joining client. -/
inductive WsServerSend
  | joined (connectionId : String)
  | errorEvent (message : String)
  deriving DecidableEq, Repr

structure JoinOutcome where
  registry : ConnState
  sent : List WsServerSend
  closedConnection : Bool
  deriving DecidableEq, Repr

/-- The `join` action: on success register and ack with `joined`; when `add`
throws, `sendError` answers on an open socket and the connection stays open. -/
def handleJoin (reg : ConnState) (connectionId : String) (ws : ReadyState)
    (info : ParticipantInfo) : JoinOutcome :=
  match reg.add connectionId ws info with
  | Except.ok reg₂ => ⟨reg₂, [WsServerSend.joined connectionId], false⟩
  | Except.error message =>
    ⟨reg, if ws = ReadyState.opened then [WsServerSend.errorEvent message] else [],
     false⟩

/-! ### Concrete fixtures used by witnesses and counterexamples -/

def aliceInfo : ParticipantInfo := ⟨"m1", "att-A", "Alice", "es-US", "en-US"⟩
def bobInfo : ParticipantInfo := ⟨"m1", "att-B", "Bob", "en-US", "es-US"⟩
def carolInfo : ParticipantInfo := ⟨"m1", "att-C", "Carol", "fr-FR", "en-US"⟩
def bobConn : ManagedConnection := ⟨ReadyState.opened, bobInfo⟩

/-- Concrete translator oracle for test runs. -/
def testTranslate : String → String → String → Option String := fun text _ _ =>
  if text = "p1" then some "hello there my friend"
  else if text = "p2" then some "hello there my friend indeed"
  else if text = "f1" then some "completely different words"
  else if text = "f2" then some "hello there my friend and colleagues"
  else some (String.append "tx " text)

/-- Concrete TTS oracle for test runs. -/
def testSynthesize : String → String → Option String := fun _ _ => some "AUDIO"

def testEnv : PipelineEnv := ⟨aliceInfo, some bobConn, testTranslate, testSynthesize⟩

/-- Alice speaks a long partial at t = 1000 ms. -/
def runP1 : PipelineState × List PipelineEmit :=
  onTranscriptResult testEnv PipelineState.init 1000 ⟨"p1", false, "es-US", none, none⟩

/-- … no final arrives for 5 s, so the stale-partial timer fires. -/
def runInterim : PipelineState × List PipelineEmit :=
  fireStaleTimer testEnv runP1.1

/-- … then the utterance's final arrives at t = 7000 ms, translating to text
that does not extend the interim text. -/
def runFinal : PipelineState × List PipelineEmit :=
  onTranscriptResult testEnv runInterim.1 7000 ⟨"f1", true, "es-US", none, none⟩

/-- Alternative continuation: a further partial of the same utterance arrives
at t = 7000 ms after the interim fired … -/
def runP2 : PipelineState × List PipelineEmit :=
  onTranscriptResult testEnv runInterim.1 7000 ⟨"p2", false, "es-US", none, none⟩

/-- … and the re-armed timer fires again. -/
def runInterim2 : PipelineState × List PipelineEmit :=
  fireStaleTimer testEnv runP2.1

/-- Registry holding Alice and Bob in meeting m1. -/
def regTwo : ConnState :=
  applyRegOps ConnState.empty
    [RegOp.add "c1" ReadyState.opened aliceInfo,
     RegOp.add "c2" ReadyState.opened bobInfo]

/-! ### Emission-count helper lemmas -/

theorem translateCallCount_append (a b : List PipelineEmit) :
    translateCallCount (a ++ b) = translateCallCount a + translateCallCount b := by
  simp [translateCallCount, List.filter_append]

theorem interimAudioCount_append (a b : List PipelineEmit) :
    interimAudioCount (a ++ b) = interimAudioCount a + interimAudioCount b := by
  simp [interimAudioCount, List.filter_append]

theorem finalAudioCount_append (a b : List PipelineEmit) :
    finalAudioCount (a ++ b) = finalAudioCount a + finalAudioCount b := by
  simp [finalAudioCount, List.filter_append]

theorem audioEventCount_append (a b : List PipelineEmit) :
    audioEventCount (a ++ b) = audioEventCount a + audioEventCount b := by
  simp [audioEventCount, List.filter_append]

/-- The translation block emits at most a single translator call and no other
event. -/
theorem translateStage_emits_shape (env : PipelineEnv) (st : PipelineState)
    (r : TranscriptResult) (s t : String) :
    (translateStage env st r s t).emits = [] ∨
    (translateStage env st r s t).emits =
      [PipelineEmit.translateCall r.text s t] := by
  unfold translateStage
  repeat' split
  all_goals first
    | exact Or.inl rfl
    | exact Or.inr rfl

theorem translateStage_audio_free (env : PipelineEnv) (st : PipelineState)
    (r : TranscriptResult) (s t : String) :
    audioEventCount (translateStage env st r s t).emits = 0 := by
  rcases translateStage_emits_shape env st r s t with h | h <;>
    simp [h, audioEventCount, isAudioEvent]

theorem translateStage_finalAudio_free (env : PipelineEnv) (st : PipelineState)
    (r : TranscriptResult) (s t : String) :
    finalAudioCount (translateStage env st r s t).emits = 0 := by
  rcases translateStage_emits_shape env st r s t with h | h <;>
    simp [h, finalAudioCount, isFinalAudio]

/-- The final branch emits at most one final audio event and nothing else. -/
theorem finalPath_emits_shape (env : PipelineEnv) (st : PipelineState)
    (p : ManagedConnection) (tt tc : String) :
    (finalPath env st p tt tc).2 = [] ∨
    ∃ e, (finalPath env st p tt tc).2 = [PipelineEmit.finalAudio e] := by
  simp only [finalPath]
  repeat' split
  all_goals first
    | exact Or.inl rfl
    | exact Or.inr ⟨_, rfl⟩

theorem finalPath_translateCall_free (env : PipelineEnv) (st : PipelineState)
    (p : ManagedConnection) (tt tc : String) :
    translateCallCount (finalPath env st p tt tc).2 = 0 := by
  rcases finalPath_emits_shape env st p tt tc with h | ⟨e, h⟩ <;>
    simp [h, translateCallCount, isTranslateCall]

theorem finalPath_interimAudio_free (env : PipelineEnv) (st : PipelineState)
    (p : ManagedConnection) (tt tc : String) :
    interimAudioCount (finalPath env st p tt tc).2 = 0 := by
  rcases finalPath_emits_shape env st p tt tc with h | ⟨e, h⟩ <;>
    simp [h, interimAudioCount, isInterimAudio]

/-! ### C5 — pivot translation structure -/

/-- Claim C5: For every text and pair of MT codes: identical codes return the
text unchanged with no RPC; when one end is the pivot `en`, exactly one direct
hop is issued; otherwise exactly two hops src → en → dst, returning the second
hop's output. -/
theorem pivotTranslate_hop_structure
    (api : String → String → String → String) (text src dst : String) :
    (src = dst → pivotTranslate api text src dst = (⟨text, text⟩, [])) ∧
    (src ≠ dst → src = PIVOT_LANGUAGE →
      pivotTranslate api text src dst =
        (⟨text, api text PIVOT_LANGUAGE dst⟩, [⟨text, PIVOT_LANGUAGE, dst⟩])) ∧
    (src ≠ dst → dst = PIVOT_LANGUAGE →
      pivotTranslate api text src dst =
        (⟨api text src PIVOT_LANGUAGE, api text src PIVOT_LANGUAGE⟩,
         [⟨text, src, PIVOT_LANGUAGE⟩])) ∧
    (src ≠ dst → src ≠ PIVOT_LANGUAGE → dst ≠ PIVOT_LANGUAGE →
      pivotTranslate api text src dst =
        (⟨api text src PIVOT_LANGUAGE,
          api (api text src PIVOT_LANGUAGE) PIVOT_LANGUAGE dst⟩,
         [⟨text, src, PIVOT_LANGUAGE⟩,
          ⟨api text src PIVOT_LANGUAGE, PIVOT_LANGUAGE, dst⟩])) := by
  refine ⟨?_, ?_, ?_, ?_⟩
  · intro h
    simp [pivotTranslate, h]
  · intro hne hsrc
    subst hsrc
    have hdst : ¬ PIVOT_LANGUAGE = dst := fun h => hne h
    simp [pivotTranslate, translateDirect, hne, hdst]
  · intro hne hdst
    subst hdst
    have hsrc : ¬ src = PIVOT_LANGUAGE := fun h => hne h
    simp [pivotTranslate, translateDirect, hne, hsrc]
  · intro hne hsrc hdst
    have h₂ : ¬ PIVOT_LANGUAGE = dst := fun h => hdst h.symm
    simp [pivotTranslate, translateDirect, hne, hsrc, hdst, h₂]

/-- Witness for C5 at concrete inputs (pivot hop oracle `api₀`). -/
theorem pivotTranslate_hop_structure_witness :
    pivotTranslate (fun t _ d => String.append d t) "hola" "es" "es" =
      (⟨"hola", "hola"⟩, []) ∧
    pivotTranslate (fun t _ d => String.append d t) "hi" "en" "fr" =
      (⟨"hi", "frhi"⟩, [⟨"hi", "en", "fr"⟩]) ∧
    pivotTranslate (fun t _ d => String.append d t) "hola" "es" "en" =
      (⟨"enhola", "enhola"⟩, [⟨"hola", "es", "en"⟩]) ∧
    pivotTranslate (fun t _ d => String.append d t) "hola" "es" "fr" =
      (⟨"enhola", "frenhola"⟩, [⟨"hola", "es", "en"⟩, ⟨"enhola", "en", "fr"⟩]) := by
  refine ⟨?_, ?_, ?_, ?_⟩
  · exact (pivotTranslate_hop_structure _ "hola" "es" "es").1 rfl
  · exact (pivotTranslate_hop_structure _ "hi" "en" "fr").2.1 (by decide) rfl
  · exact (pivotTranslate_hop_structure _ "hola" "es" "en").2.2.1 (by decide) rfl
  · exact (pivotTranslate_hop_structure _ "hola" "es" "fr").2.2.2
      (by decide) (by decide) (by decide)

/-! ### C3 — two-party capacity of the connection registry -/

/-- Claim C3: Every registry state reachable from empty via add/remove keeps at
most two connections per meeting, and an `add` on a meeting that already has
two members throws meeting-full while leaving the registry unchanged. -/
theorem registry_two_party_cap (ops : List RegOp) :
    meetingCap (applyRegOps ConnState.empty ops) ∧
    (∀ cid ws info existing,
      mapGet info.meetingId (applyRegOps ConnState.empty ops).meetingMembers =
        some existing →
      2 ≤ existing.length →
      (applyRegOps ConnState.empty ops).add cid ws info =
        Except.error "Meeting is full (2 participants maximum)" ∧
      applyRegOp (applyRegOps ConnState.empty ops) (RegOp.add cid ws info) =
        applyRegOps ConnState.empty ops) := by
  refine ⟨meetingCap_applyRegOps ops, ?_⟩
  intro cid ws info existing hg hfull
  have herr : (applyRegOps ConnState.empty ops).add cid ws info =
      Except.error "Meeting is full (2 participants maximum)" :=
    ConnState.add_full hg hfull
  refine ⟨herr, ?_⟩
  show (match (applyRegOps ConnState.empty ops).add cid ws info with
    | Except.ok st₂ => st₂
    | Except.error _ => applyRegOps ConnState.empty ops) = _
  rw [herr]

/-- Witness for C3: with Alice and Bob in meeting m1, Carol's add throws and
the registry is untouched. -/
theorem registry_two_party_cap_witness :
    regTwo.add "c3" ReadyState.opened carolInfo =
      Except.error "Meeting is full (2 participants maximum)" ∧
    applyRegOp regTwo (RegOp.add "c3" ReadyState.opened carolInfo) = regTwo := by
  have h := (registry_two_party_cap
    [RegOp.add "c1" ReadyState.opened aliceInfo,
     RegOp.add "c2" ReadyState.opened bobInfo]).2
    "c3" ReadyState.opened carolInfo ["c1", "c2"] (by decide) (by decide)
  exact h

/-! ### C10 — soundness of getPartner -/

/-- Claim C10: Whenever `getPartner` returns a connection, that connection is
registered (under some id) in the queried meeting's member set, that id
differs from the caller's, and its socket is OPEN; the caller's own entry and
non-open connections are never returned. -/
theorem getPartner_sound (st : ConnState) (meetingId myId : String)
    (conn : ManagedConnection)
    (h : st.getPartner meetingId myId = some conn) :
    ∃ members id, mapGet meetingId st.meetingMembers = some members ∧
      id ∈ members ∧ id ≠ myId ∧ mapGet id st.connections = some conn ∧
      conn.ws = ReadyState.opened := by
  rw [ConnState.getPartner] at h
  cases hg : mapGet meetingId st.meetingMembers with
  | none => simp [hg] at h
  | some members =>
    rw [hg] at h
    obtain ⟨id, hmem, hne, hget, hws⟩ := findOpenPartner_sound h
    exact ⟨members, id, rfl, hmem, hne, hget, hws⟩

/-- Witness for C10 on the concrete two-member registry. -/
theorem getPartner_sound_witness :
    ∃ members id, mapGet "m1" regTwo.meetingMembers = some members ∧
      id ∈ members ∧ id ≠ "c1" ∧
      mapGet id regTwo.connections = some ⟨ReadyState.opened, bobInfo⟩ ∧
      (⟨ReadyState.opened, bobInfo⟩ : ManagedConnection).ws = ReadyState.opened :=
  getPartner_sound regTwo "m1" "c1" ⟨ReadyState.opened, bobInfo⟩ (by decide)

/-! ### C4 — meeting-full join: error event, but no close -/

/-- Claim C4 counterexample: Alice and Bob occupy m1; Carol's `join` gets the
meeting-full `error` event but her connection is *not* closed — the handler
has no `ws.close()` call — contradicting the claim that the transport is
closed. -/
theorem join_full_no_close_counterexample :
    (handleJoin regTwo "c3" ReadyState.opened carolInfo).sent =
      [WsServerSend.errorEvent "Meeting is full (2 participants maximum)"] ∧
    (handleJoin regTwo "c3" ReadyState.opened carolInfo).closedConnection = false := by
  decide

/-- Claim C4 amended: A join on a meeting that already has two members sends
the meeting-full `error` event to an open joiner, leaves the registry
unchanged, and does not close the joiner's connection. -/
theorem join_full_error_event (reg : ConnState) (cid : String)
    (info : ParticipantInfo) (existing : List String)
    (hg : mapGet info.meetingId reg.meetingMembers = some existing)
    (hfull : 2 ≤ existing.length) :
    handleJoin reg cid ReadyState.opened info =
      ⟨reg, [WsServerSend.errorEvent "Meeting is full (2 participants maximum)"],
       false⟩ := by
  rw [handleJoin, ConnState.add_full hg hfull]
  simp

/-- Witness for the amended C4. -/
theorem join_full_error_event_witness :
    handleJoin regTwo "c3" ReadyState.opened carolInfo =
      ⟨regTwo, [WsServerSend.errorEvent "Meeting is full (2 participants maximum)"],
       false⟩ :=
  join_full_error_event regTwo "c3" carolInfo ["c1", "c2"] (by decide) (by decide)

/-! ### Field-preservation lemmas for the pipeline steps -/

theorem preSynthStep_lastPartialTime (env : PipelineEnv) (st : PipelineState)
    (now : Nat) (f : Bool) (tt : String) :
    (preSynthStep env st now f tt).lastPartialTime = st.lastPartialTime := by
  simp only [preSynthStep]
  repeat' split
  all_goals rfl

theorem staleStep_lastPartialTime (env : PipelineEnv) (st : PipelineState)
    (now : Nat) (f : Bool) (tt tc : String) :
    (staleStep env st now f tt tc).lastPartialTime = st.lastPartialTime := by
  simp only [staleStep]
  repeat' split
  all_goals rfl

theorem finalPath_lastPartialTime (env : PipelineEnv) (st : PipelineState)
    (p : ManagedConnection) (tt tc : String) :
    ((finalPath env st p tt tc).1).lastPartialTime = st.lastPartialTime := by
  simp only [finalPath]
  repeat' split
  all_goals rfl

/-- On finals the pre-synthesis block leaves the state untouched. -/
theorem preSynthStep_final (env : PipelineEnv) (st : PipelineState) (now : Nat)
    (tt : String) : preSynthStep env st now true tt = st := by
  simp only [preSynthStep]
  repeat' split
  all_goals simp_all

/-- On finals the stale-partial block leaves the state untouched. -/
theorem staleStep_final (env : PipelineEnv) (st : PipelineState) (now : Nat)
    (tt tc : String) : staleStep env st now true tt tc = st := by
  simp only [staleStep]
  repeat' split
  all_goals simp_all

/-! ### C7 — 100 ms partial throttle -/

/-- Claim C7: A partial arriving strictly less than 100 ms after the previously
accepted partial is dropped whole — identical state, no events; when a partial
is accepted, the throttle timestamp becomes `now`; finals never touch it. -/
theorem partial_throttle (env : PipelineEnv) (st : PipelineState) (now : Nat)
    (r : TranscriptResult) :
    (r.isFinal = false → now - st.lastPartialTime.getD 0 < 100 →
      onTranscriptResult env st now r = (st, [])) ∧
    (r.isFinal = false → ¬ now - st.lastPartialTime.getD 0 < 100 →
      ((onTranscriptResult env st now r).1).lastPartialTime = some now) ∧
    (r.isFinal = true →
      ((onTranscriptResult env st now r).1).lastPartialTime = st.lastPartialTime) := by
  refine ⟨?_, ?_, ?_⟩
  · intro hp hlt
    rw [onTranscriptResult, if_pos ⟨hp, hlt⟩]
  · intro hp hge
    rw [onTranscriptResult, if_neg (fun h => hge h.2)]
    cases henv : env.partner with
    | none =>
      simp [hp, henv, staleStep_lastPartialTime, preSynthStep_lastPartialTime]
    | some p =>
      simp only [henv]
      split
      · rename_i hcond
        rw [hp] at hcond
        exact absurd hcond.1 (by simp)
      · simp [hp, staleStep_lastPartialTime, preSynthStep_lastPartialTime]
  · intro hf
    rw [onTranscriptResult, if_neg (fun h => by simp [hf] at h)]
    cases henv : env.partner with
    | none =>
      simp [hf, henv, staleStep_lastPartialTime, preSynthStep_lastPartialTime]
    | some p =>
      simp only [henv]
      split
      · simp [hf, finalPath_lastPartialTime, staleStep_lastPartialTime,
          preSynthStep_lastPartialTime]
      · simp [hf, staleStep_lastPartialTime, preSynthStep_lastPartialTime]

/-- Witness for C7: partial at t = 1050 ms, 50 ms after the accepted partial
of `runP1`, is dropped whole; the accepted partial stamped 1000; a final
leaves the stamp alone. -/
theorem partial_throttle_witness :
    onTranscriptResult testEnv runP1.1 1050 ⟨"p1b", false, "es-US", none, none⟩ =
      (runP1.1, []) ∧
    (runP1.1).lastPartialTime = some 1000 ∧
    ((onTranscriptResult testEnv runP1.1 7000
        ⟨"f1", true, "es-US", none, none⟩).1).lastPartialTime =
      (runP1.1).lastPartialTime := by
  refine ⟨?_, by decide, ?_⟩
  · exact (partial_throttle testEnv runP1.1 1050
      ⟨"p1b", false, "es-US", none, none⟩).1 rfl (by decide)
  · exact (partial_throttle testEnv runP1.1 7000
      ⟨"f1", true, "es-US", none, none⟩).2.2 rfl

/-! ### C6 — final transcript reuses the cached partial translation -/

/-- The caption-emit list is free of translator calls and audio events. -/
theorem captionEmits_translateCall_free (b : Bool) (c : CaptionEvent) :
    translateCallCount (if b = true then [PipelineEmit.caption c] else []) = 0 := by
  split <;> simp [translateCallCount, isTranslateCall]

theorem captionEmits_audio_free (b : Bool) (c : CaptionEvent) :
    audioEventCount (if b = true then [PipelineEmit.caption c] else []) = 0 := by
  split <;> simp [audioEventCount, isAudioEvent]

theorem captionEmits_finalAudio_free (b : Bool) (c : CaptionEvent) :
    finalAudioCount (if b = true then [PipelineEmit.caption c] else []) = 0 := by
  split <;> simp [finalAudioCount, isFinalAudio]

/-- Cache hit in the translation block: a final whose text equals the cached
partial's original text reuses the cached translation, issues no RPC, and
clears the cache. -/
theorem translateStage_cache_hit {env : PipelineEnv} {st : PipelineState}
    {r : TranscriptResult} {s t : String} (c : TxCacheEntry)
    (hne : s ≠ t) (hcache : st.partialTranslationCache = some c)
    (hfin : r.isFinal = true) (htext : c.originalText = r.text) :
    translateStage env st r s t = ⟨c.translatedText, true, [], none⟩ := by
  rw [translateStage, if_neg hne]
  simp [hcache, hfin, htext]

/-- Claim C6: When source and target MT codes differ and the final's text equals
the cached partial's original text, processing the final issues no translator
call, its translated text is the cached one, and (when the partner socket is
open) the final caption carries the cached translation. -/
theorem final_uses_partial_cache (env : PipelineEnv) (st : PipelineState)
    (now : Nat) (r : TranscriptResult) (c : TxCacheEntry)
    (hfin : r.isFinal = true)
    (hcache : st.partialTranslationCache = some c)
    (htext : c.originalText = r.text)
    (hlang : transcribeToTranslateCode r.detectedLanguage ≠ targetCodeFor env) :
    translateCallCount (onTranscriptResult env st now r).2 = 0 ∧
    translatedTextOf env st r = c.translatedText ∧
    (partnerIsOpen env = true →
      PipelineEmit.caption
        (mkCaption env r (transcribeToTranslateCode r.detectedLanguage)
          (targetCodeFor env) c.translatedText) ∈
        (onTranscriptResult env st now r).2) := by
  have htx : translateStage env st r (transcribeToTranslateCode r.detectedLanguage)
      (targetCodeFor env) = ⟨c.translatedText, true, [], none⟩ :=
    translateStage_cache_hit c hlang hcache hfin htext
  refine ⟨?_, ?_, ?_⟩
  · rw [onTranscriptResult, if_neg (fun h => by simp [hfin] at h)]
    cases henv : env.partner with
    | none =>
      simp [hfin, htx, translateCallCount_append, captionEmits_translateCall_free]
    | some p =>
      simp only [henv]
      split
      · simp [hfin, htx, translateCallCount_append, captionEmits_translateCall_free,
          finalPath_translateCall_free]
      · simp [hfin, htx, translateCallCount_append, captionEmits_translateCall_free]
  · rw [translatedTextOf, htx]
  · intro hopen
    rw [onTranscriptResult, if_neg (fun h => by simp [hfin] at h)]
    cases henv : env.partner with
    | none => simp [partnerIsOpen, henv] at hopen
    | some p =>
      simp only [henv]
      split
      · simp [hfin, htx, hopen]
      · simp [hfin, htx, hopen]

/-- Witness for C6 on concrete state: cached partial `("p1", "hello there my
friend")` and a final with the same text. -/
theorem final_uses_partial_cache_witness :
    translateCallCount (onTranscriptResult testEnv runP1.1 7000
      ⟨"p1", true, "es-US", none, none⟩).2 = 0 ∧
    translatedTextOf testEnv runP1.1 ⟨"p1", true, "es-US", none, none⟩ =
      "hello there my friend" ∧
    (partnerIsOpen testEnv = true →
      PipelineEmit.caption
        (mkCaption testEnv ⟨"p1", true, "es-US", none, none⟩
          (transcribeToTranslateCode "es-US") (targetCodeFor testEnv)
          "hello there my friend") ∈
        (onTranscriptResult testEnv runP1.1 7000
          ⟨"p1", true, "es-US", none, none⟩).2) :=
  final_uses_partial_cache testEnv runP1.1 7000 ⟨"p1", true, "es-US", none, none⟩
    ⟨"p1", "hello there my friend"⟩ rfl (by decide) (by decide) (by decide)

/-! ### C8 — 65 536-byte frame gate -/

/-- Claim C8: Oversized binary frames (65 537 bytes or more) are dropped with no
state change and no event; a frame of exactly 65 536 bytes on a live session
is forwarded to it, appending the frame to the session's pushed stream. -/
theorem audio_frame_size_gate (env : AudioEnv) (st : AudioState) (data : Nat) :
    (65536 < data → handleAudioFrame env st data = (st, [])) ∧
    (∀ s : AsrSession, data = 65536 → st.session = some s →
      needsRestart st.session = false →
      handleAudioFrame env st data =
        ({ st with session := some (s.pushAudio data) }, [])) ∧
    (∀ s : AsrSession, s.active = true → s.hasConnection = true →
      (s.pushAudio data).pushed = s.pushed ++ [data]) := by
  refine ⟨?_, ?_, ?_⟩
  · intro hbig
    rw [handleAudioFrame, if_pos hbig]
  · intro s hsize hsess hlive
    rw [handleAudioFrame, if_neg (by omega), hlive]
    simp [hsess]
  · intro s hact hconn
    cases hp : s.provider <;> simp [AsrSession.pushAudio, hp, hact, hconn]

/-- Witness for C8: a 65 536-byte frame reaches a live Deepgram session, a
65 537-byte frame is dropped. -/
theorem audio_frame_size_gate_witness :
    handleAudioFrame ⟨true⟩
      ⟨some ⟨AsrProvider.deepgram, true, DgConnState.opened, true, "es-US", []⟩,
       some aliceInfo⟩ 65537 =
      (⟨some ⟨AsrProvider.deepgram, true, DgConnState.opened, true, "es-US", []⟩,
        some aliceInfo⟩, []) ∧
    handleAudioFrame ⟨true⟩
      ⟨some ⟨AsrProvider.deepgram, true, DgConnState.opened, true, "es-US", []⟩,
       some aliceInfo⟩ 65536 =
      (⟨some ⟨AsrProvider.deepgram, true, DgConnState.opened, true, "es-US", [65536]⟩,
        some aliceInfo⟩, []) := by
  constructor
  · exact (audio_frame_size_gate ⟨true⟩ _ 65537).1 (by decide)
  · have h := (audio_frame_size_gate ⟨true⟩
      ⟨some ⟨AsrProvider.deepgram, true, DgConnState.opened, true, "es-US", []⟩,
       some aliceInfo⟩ 65536).2.1
      ⟨AsrProvider.deepgram, true, DgConnState.opened, true, "es-US", []⟩
      rfl rfl (by decide)
    rw [h]
    decide

/-! ### C9 — auto-restart on dead or missing ASR session -/

/-- Claim C9: An in-size frame arriving on a joined connection whose session is
missing or (Deepgram) not alive causes a fresh session to be created and that
very frame to be forwarded to it — the restarted session's pushed stream is
exactly the arriving frame. -/
theorem dead_session_restart (env : AudioEnv) (st : AudioState) (data : Nat)
    (info : ParticipantInfo) (code : String)
    (hsize : ¬ 65536 < data)
    (hdead : needsRestart st.session = true)
    (hconn : st.conn = some info)
    (hcode : getTranscribeCode info.spokenLanguage = some code) :
    handleAudioFrame env st data =
      ({ st with
          session := some ((freshSession env.useDeepgram code).pushAudio data) },
       []) ∧
    ((freshSession env.useDeepgram code).pushAudio data).pushed = [data] := by
  constructor
  · rw [handleAudioFrame, if_neg hsize, hdead]
    simp [hconn, startTranscriptionSession, hcode]
  · cases hdg : env.useDeepgram <;>
      simp [freshSession, AsrSession.pushAudio]

/-- Witness for C9: a dead Deepgram session is replaced and the 320-byte frame
lands in the new session. -/
theorem dead_session_restart_witness :
    handleAudioFrame ⟨true⟩
      ⟨some ⟨AsrProvider.deepgram, true, DgConnState.closed, true, "es-US", [1, 2]⟩,
       some aliceInfo⟩ 320 =
      (⟨some ((freshSession true "es-US").pushAudio 320), some aliceInfo⟩, []) ∧
    ((freshSession true "es-US").pushAudio 320).pushed = [320] :=
  dead_session_restart ⟨true⟩
    ⟨some ⟨AsrProvider.deepgram, true, DgConnState.closed, true, "es-US", [1, 2]⟩,
     some aliceInfo⟩ 320 aliceInfo "es-US" (by decide) (by decide) rfl (by decide)

/-! ### C1 — interim audio versus final audio -/

/-- The final branch emits nothing when the normalized final translation
starts with the non-empty interim text already played. -/
theorem finalPath_skip {env : PipelineEnv} {st : PipelineState}
    {p : ManagedConnection} {tt tc ip : String}
    (hip : st.interimPollyText = some ip) (hne : ip ≠ "")
    (hpre : strBeginsWith (normalizeForComparison tt) ip = true) :
    (finalPath env st p tt tc).2 = [] := by
  simp only [finalPath]
  simp [hip, hne, hpre]

/-- The translation block ignores `lastPartialTime`. -/
theorem translateStage_ignores_lastPartialTime (env : PipelineEnv)
    (st : PipelineState) (r : TranscriptResult) (s t : String) (now : Nat) :
    translateStage env { st with lastPartialTime := some now } r s t =
      translateStage env st r s t := rfl

theorem finalPath_skip_count (env : PipelineEnv) (st : PipelineState)
    (p : ManagedConnection) (tt tc : String) (ip : String)
    (hip : st.interimPollyText = some ip) (hne : ip ≠ "")
    (hpre : strBeginsWith (normalizeForComparison tt) ip = true) :
    finalAudioCount (finalPath env st p tt tc).2 = 0 := by
  rw [finalPath_skip hip hne hpre]
  rfl

/-- Evaluation of `onTranscriptResult` on a final with an open partner: the
throttle, pre-synthesis and stale-partial blocks are inert, the translation
block runs on the incoming state, and the final branch takes over. -/
theorem onTranscriptResult_final_open (env : PipelineEnv) (st : PipelineState)
    (now : Nat) (r : TranscriptResult) (p : ManagedConnection)
    (hfin : r.isFinal = true) (henv : env.partner = some p)
    (hws : p.ws = ReadyState.opened) :
    onTranscriptResult env st now r =
      ((finalPath env
          { st with partialTranslationCache :=
              (translateStage env st r (transcribeToTranslateCode r.detectedLanguage)
                (targetCodeFor env)).cache }
          p
          (translateStage env st r (transcribeToTranslateCode r.detectedLanguage)
            (targetCodeFor env)).translatedText
          (targetCodeFor env)).1,
       (translateStage env st r (transcribeToTranslateCode r.detectedLanguage)
          (targetCodeFor env)).emits ++
        ((if partnerIsOpen env = true then
            [PipelineEmit.caption
              (mkCaption env r (transcribeToTranslateCode r.detectedLanguage)
                (targetCodeFor env)
                (translateStage env st r
                  (transcribeToTranslateCode r.detectedLanguage)
                  (targetCodeFor env)).translatedText)]
          else []) ++
         (finalPath env
            { st with partialTranslationCache :=
                (translateStage env st r
                  (transcribeToTranslateCode r.detectedLanguage)
                  (targetCodeFor env)).cache }
            p
            (translateStage env st r (transcribeToTranslateCode r.detectedLanguage)
              (targetCodeFor env)).translatedText
            (targetCodeFor env)).2)) := by
  rw [onTranscriptResult, if_neg (fun h => by simp [hfin] at h)]
  simp [henv, hfin, hws, preSynthStep_final, staleStep_final]

/-- Claim C1 counterexample: In the run `runP1 → runInterim → runFinal` the
interim audio fired for the utterance (`interimPollyText` set, one interim
audio event delivered), yet processing the utterance's final still emits a
final `TranslatedAudioEvent`, because the final's translation does not start
with the interim text; the partner receives both events. -/
theorem interim_then_final_audio_counterexample :
    interimAudioCount runInterim.2 = 1 ∧
    (runInterim.1).interimPollyText = some "hello there my friend" ∧
    finalAudioCount runFinal.2 = 1 := by decide

/-- Claim C1 amended: When interim audio was played (`interimPollyText` set to
a non-empty normalized text) *and* the normalized final translation starts
with that text, the final emits no final audio event.  (When the final's
translation does not extend the interim text, a final audio event is still
sent — see the counterexample.) -/
theorem interim_prefix_skips_final_audio (env : PipelineEnv) (st : PipelineState)
    (now : Nat) (r : TranscriptResult) (ip : String)
    (hfin : r.isFinal = true)
    (hip : st.interimPollyText = some ip)
    (hne : ip ≠ "")
    (hpre : strBeginsWith (normalizeForComparison (translatedTextOf env st r)) ip
      = true) :
    finalAudioCount (onTranscriptResult env st now r).2 = 0 := by
  rw [translatedTextOf] at hpre
  cases henv : env.partner with
  | none =>
    rw [onTranscriptResult, if_neg (fun h => by simp [hfin] at h)]
    simp [henv, hfin, finalAudioCount_append, translateStage_finalAudio_free,
      captionEmits_finalAudio_free]
  | some p =>
    by_cases hws : p.ws = ReadyState.opened
    · rw [onTranscriptResult_final_open env st now r p hfin henv hws]
      have hz := finalPath_skip_count env
        { st with partialTranslationCache :=
            (translateStage env st r (transcribeToTranslateCode r.detectedLanguage)
              (targetCodeFor env)).cache }
        p
        (translateStage env st r (transcribeToTranslateCode r.detectedLanguage)
          (targetCodeFor env)).translatedText
        (targetCodeFor env) ip hip hne hpre
      simp [finalAudioCount_append, translateStage_finalAudio_free,
        captionEmits_finalAudio_free, hz]
    · rw [onTranscriptResult, if_neg (fun h => by simp [hfin] at h)]
      simp only [henv]
      split
      · rename_i hcond
        exact absurd hcond.2 hws
      · simp [hfin, finalAudioCount_append, translateStage_finalAudio_free,
          captionEmits_finalAudio_free]

/-- Witness for the amended C1: after the interim fired, a final whose
translation extends the interim text produces no final audio. -/
theorem interim_prefix_skips_final_audio_witness :
    finalAudioCount (onTranscriptResult testEnv runInterim.1 7000
      ⟨"f2", true, "es-US", none, none⟩).2 = 0 :=
  interim_prefix_skips_final_audio testEnv runInterim.1 7000
    ⟨"f2", true, "es-US", none, none⟩ "hello there my friend"
    rfl (by decide) (by decide) (by decide)

/-! ### C2 — interim audio scheduling after an interim already fired -/

/-- Claim C2 counterexample: After the interim fired (`runInterim`), the next
partial of the same utterance (`runP2`, no final in between) re-arms the
stale-partial timer, and its firing (`runInterim2`) emits a *second* interim
audio event for the utterance — the claim that no further interim audio is
scheduled once `interimPollyFired` is set fails: the gate does not consult
`interimPollyText`. -/
theorem second_interim_scheduled_counterexample :
    interimAudioCount runInterim.2 = 1 ∧
    (runInterim.1).interimPollyText.isSome = true ∧
    (runP2.1).stalePartialTimer = some ⟨12000, "en"⟩ ∧
    interimAudioCount runInterim2.2 = 1 := by decide

/-- Claim C2 amended: Each firing of the stale-partial timer emits at most one
interim audio event, and processing a partial emits no audio event itself —
but a qualifying partial (partner present, not throttled, translation longer
than 10 characters) re-arms the single 5000 ms timer *regardless of whether
interim audio was already played for the utterance*, so several interim audio
events per utterance are possible, one per timer expiry, with at most one
timer pending at a time. -/
theorem stale_timer_rescheduling (env : PipelineEnv) (st : PipelineState)
    (now : Nat) (r : TranscriptResult) :
    interimAudioCount (fireStaleTimer env st).2 ≤ 1 ∧
    (r.isFinal = false → audioEventCount (onTranscriptResult env st now r).2 = 0) ∧
    (∀ p : ManagedConnection, r.isFinal = false → env.partner = some p →
      ¬ now - st.lastPartialTime.getD 0 < 100 →
      10 < (translatedTextOf env st r).length →
      ((onTranscriptResult env st now r).1).stalePartialTimer =
        some ⟨now + 5000, targetCodeFor env⟩) := by
  refine ⟨?_, ?_, ?_⟩
  · simp only [fireStaleTimer]
    repeat' split
    all_goals simp [interimAudioCount, isInterimAudio]
  · intro hp
    by_cases hthr : now - st.lastPartialTime.getD 0 < 100
    · rw [onTranscriptResult, if_pos ⟨hp, hthr⟩]
      simp [audioEventCount]
    · rw [onTranscriptResult, if_neg (fun h => hthr h.2)]
      cases henv : env.partner with
      | none =>
        simp [hp, audioEventCount_append, translateStage_audio_free,
          captionEmits_audio_free]
      | some p =>
        simp only [henv]
        split
        · rename_i hcond
          rw [hp] at hcond
          exact absurd hcond.1 (by simp)
        · simp [hp, audioEventCount_append, translateStage_audio_free,
            captionEmits_audio_free]
  · intro p hp henv hthr hlen
    rw [translatedTextOf] at hlen
    rw [onTranscriptResult, if_neg (fun h => hthr h.2)]
    simp only [henv]
    split
    · rename_i hcond
      rw [hp] at hcond
      exact absurd hcond.1 (by simp)
    · simp [hp, staleStep, henv, translateStage_ignores_lastPartialTime, hlen]

/-- Witness for the amended C2, the third part applied at a state in which
interim audio has already been played (`interimPollyText` set). -/
theorem stale_timer_rescheduling_witness :
    interimAudioCount (fireStaleTimer testEnv runP1.1).2 ≤ 1 ∧
    audioEventCount (onTranscriptResult testEnv PipelineState.init 1000
      ⟨"p1", false, "es-US", none, none⟩).2 = 0 ∧
    ((onTranscriptResult testEnv runInterim.1 7000
      ⟨"p2", false, "es-US", none, none⟩).1).stalePartialTimer =
      some ⟨12000, targetCodeFor testEnv⟩ := by
  refine ⟨(stale_timer_rescheduling testEnv runP1.1 0
      ⟨"p1", false, "es-US", none, none⟩).1, ?_, ?_⟩
  · exact (stale_timer_rescheduling testEnv PipelineState.init 1000
      ⟨"p1", false, "es-US", none, none⟩).2.1 rfl
  · exact (stale_timer_rescheduling testEnv runInterim.1 7000
      ⟨"p2", false, "es-US", none, none⟩).2.2 bobConn rfl rfl (by decide) (by decide)

end InfiniZe
